import Mathlib

set_option autoImplicit false

namespace Tutorial

/-! Shallow embedding of src/main.py: a FastAPI + SQLModel CRUD service over
two SQLite tables, `team` and `hero`. Lists model table contents in insertion
(rowid) order; SQLite assigns a fresh rowid of one more than the largest
existing rowid. Database level column constraints that the handlers can trip
(NOT NULL on the required text columns) are modelled at the commit points. -/

/-- Team row of the `team` table (`class Team`, src/main.py lines 5-13):
integer primary key `id`, NOT NULL text columns `name` and `headquarters`.
The `heroes` relationship attribute is computed by joining on `Hero.team_id`
and is not stored on the row. -/
structure Team where
  id : Nat
  name : String
  headquarters : String
deriving DecidableEq, Repr

/-- Hero row of the `hero` table (`class Hero`, lines 29-41): integer primary
key `id`, NOT NULL text `name`, `secret_name` and `hashed_password`, nullable
integer `age`, nullable `team_id` declared as a foreign key into `team.id`
(not enforced by SQLite here, since the engine never enables the pragma for
foreign keys). -/
structure Hero where
  id : Nat
  name : String
  secret_name : String
  age : Option Int
  team_id : Option Nat
  hashed_password : String
deriving DecidableEq, Repr

/-- Creation payload `TeamCreate` (lines 16-17): both fields required. -/
structure TeamCreate where
  name : String
  headquarters : String
deriving DecidableEq, Repr

/-- Response shape `TeamPublic` (lines 20-21): the fields of `TeamBase` plus
the now mandatory `id`. -/
structure TeamPublic where
  id : Nat
  name : String
  headquarters : String
deriving DecidableEq, Repr

/-- Patch payload `TeamUpdate` (lines 24-26). The outer `Option` records
pydantic field presence (what `model_dump` with `exclude_unset` keeps); the
inner `Option` is the JSON null value, which pydantic accepts for both
fields since they are typed `str | None`. -/
structure TeamUpdate where
  name : Option (Option String)
  headquarters : Option (Option String)
deriving DecidableEq, Repr

/-- Creation payload `HeroCreate` (lines 44-45): the `HeroBase` fields plus a
required plaintext `password`. -/
structure HeroCreate where
  name : String
  secret_name : String
  age : Option Int
  team_id : Option Nat
  password : String
deriving DecidableEq, Repr

/-- Response shape `HeroPublic` (lines 48-49): the `HeroBase` fields plus the
mandatory `id`; `hashed_password` is not among its declared fields. -/
structure HeroPublic where
  id : Nat
  name : String
  secret_name : String
  age : Option Int
  team_id : Option Nat
deriving DecidableEq, Repr

/-- Patch payload `HeroUpdate` (lines 52-57); presence encoded as in
`TeamUpdate`, every field typed optional in the source. -/
structure HeroUpdate where
  name : Option (Option String)
  secret_name : Option (Option String)
  age : Option (Option Int)
  password : Option (Option String)
  team_id : Option (Option Nat)
deriving DecidableEq, Repr

/-- Response shape `HeroPublicWithTeam` (lines 60-61): a `HeroPublic` plus the
optional expanded `team`. -/
structure HeroPublicWithTeam extends HeroPublic where
  team : Option TeamPublic
deriving DecidableEq, Repr

/-- Database state: the two tables, in rowid (insertion) order. -/
structure DB where
  teams : List Team
  heroes : List Hero
deriving DecidableEq, Repr

/-- Success acknowledgment of the delete handlers (lines 204 and 264). -/
structure Ack where
  ok : Bool
deriving DecidableEq, Repr

/-- Outcomes a request can end in besides a success body: an explicit 404
raised by `HTTPException`, a 422 from FastAPI query validation, or a 500 from
an uncaught exception (attribute errors, database integrity errors, response
model validation errors). -/
inductive Err where
  | notFound (detail : String)
  | validationError
  | serverError
deriving DecidableEq, Repr

def heroNotFoundDetail : String := "Hero not found"

def teamNotFoundDetail : String := "Team not found"

def heroNotFound : Err := Err.notFound heroNotFoundDetail

def teamNotFound : Err := Err.notFound teamNotFoundDetail

/-- The placeholder hash (`hash_password`, lines 136-138): an f-string around
the plaintext. -/
def hash_password (password : String) : String :=
  "not really hashed " ++ password ++ " hehehe"

/-- Rendering of an optional string inside a Python f-string: `None` prints
as the text None. `update_hero` can reach `hash_password` with the value
None when the payload supplies an explicit null password. -/
def pyStr : Option String → String
  | none => "None"
  | some s => s

/-- Primary key lookup `session.get(Team, team_id)`. -/
def getTeam (db : DB) (team_id : Nat) : Option Team :=
  db.teams.find? fun t => t.id == team_id

/-- Primary key lookup `session.get(Hero, hero_id)`. -/
def getHero (db : DB) (hero_id : Nat) : Option Hero :=
  db.heroes.find? fun h => h.id == hero_id

/-- Largest team rowid currently in the table (0 when empty). -/
def maxTeamId (db : DB) : Nat :=
  db.teams.foldr (fun t m => max t.id m) 0

/-- Rowid SQLite assigns to a newly inserted team: largest current plus 1. -/
def freshTeamId (db : DB) : Nat :=
  maxTeamId db + 1

/-- Largest hero rowid currently in the table (0 when empty). -/
def maxHeroId (db : DB) : Nat :=
  db.heroes.foldr (fun h m => max h.id m) 0

/-- Rowid SQLite assigns to a newly inserted hero: largest current plus 1. -/
def freshHeroId (db : DB) : Nat :=
  maxHeroId db + 1

/-- Committing an UPDATE of the row with the given primary key: the session
holds the fetched row, so the write lands on the row with that key. -/
def updateHeroes (heroes : List Hero) (hero_id : Nat) (h2 : Hero) : List Hero :=
  heroes.map fun h => if h.id == hero_id then h2 else h

/-- LIMIT and OFFSET as SQLite evaluates them: a negative offset behaves as
zero, a negative limit means no upper bound. -/
def sqliteSlice {α : Type} (offset limit : Int) (rows : List α) : List α :=
  let rest := rows.drop offset.toNat
  if limit < 0 then rest else rest.take limit.toNat

/-- Serialization of a response through `response_model=TeamPublic`. -/
def Team.toPublic (t : Team) : TeamPublic :=
  { id := t.id, name := t.name, headquarters := t.headquarters }

/-- Serialization of a response through `response_model=HeroPublic`: exactly
the declared fields of `HeroPublic`, so `hashed_password` is dropped. -/
def Hero.toPublic (h : Hero) : HeroPublic :=
  { id := h.id
    name := h.name
    secret_name := h.secret_name
    age := h.age
    team_id := h.team_id }

/-- POST /teams/ (`create_team`, lines 150-156): validate into a `Team` row,
insert with a fresh rowid, commit, refresh, return through `TeamPublic`. -/
def create_team (db : DB) (team : TeamCreate) : TeamPublic × DB :=
  let db_team : Team :=
    { id := freshTeamId db, name := team.name, headquarters := team.headquarters }
  (Team.toPublic db_team, { db with teams := db.teams ++ [db_team] })

/-- GET /teams/ (`read_teams`, lines 159-167). The limit query parameter is
declared with the upper bound 100 (`Query(default=100, le=100)`), which
FastAPI enforces by rejecting any larger value with a 422 validation error
before the handler runs; it is not clamped. -/
def read_teams (db : DB) (offset limit : Int) : Except Err (List TeamPublic) :=
  if 100 < limit then Except.error Err.validationError
  else Except.ok ((sqliteSlice offset limit db.teams).map Team.toPublic)

/-- GET /teams/\x7bteam_id\x7d (`read_team`, lines 170-175). -/
def read_team (db : DB) (team_id : Nat) : Except Err TeamPublic :=
  match getTeam db team_id with
  | none => Except.error teamNotFound
  | some t => Except.ok (Team.toPublic t)

/-- PATCH /teams/\x7bteam_id\x7d (`update_team`, lines 178-194), embedded as
written, bugs included:
the lookup is `session.get(Hero, team_id)`, fetching from the hero table;
the guard `if not team` tests the request payload, a pydantic model that is
always truthy, so the 404 branch is unreachable and a missing hero makes the
following `setattr` or `session.add` blow up on None (a 500);
when the dumped payload contains `headquarters`, the `setattr` raises,
because `Hero` declares no such field (pydantic refuses unknown attributes),
so nothing is committed (a 500);
a present null `name` reaches the commit and trips the NOT NULL constraint
on `hero.name`, rolling back (a 500);
a present non-null `name` is committed onto the hero row, and the handler
then fails anyway, because serializing a `Hero` through
`response_model=TeamPublic` lacks the required `headquarters` field (a 500
with the store already mutated);
with no field present the same serialization failure ends the request (a
500, store untouched). -/
def update_team (db : DB) (team_id : Nat) (team : TeamUpdate) :
    Except Err TeamPublic × DB :=
  match getHero db team_id with
  | none => (Except.error Err.serverError, db)
  | some db_hero =>
    match team.headquarters with
    | some _ => (Except.error Err.serverError, db)
    | none =>
      match team.name with
      | none => (Except.error Err.serverError, db)
      | some none => (Except.error Err.serverError, db)
      | some (some v) =>
        (Except.error Err.serverError,
          { db with heroes := updateHeroes db.heroes team_id { db_hero with name := v } })

/-- DELETE /teams/\x7bteam_id\x7d (`delete_team`, lines 197-204). The row is
deleted through the session; the `Team.heroes` relationship (line 13) has no
delete cascade and no passive delete flag, so the ORM unit of work
de-associates the children at flush time: every hero row whose `team_id`
references the deleted team has that column set to NULL before the team row
is removed. -/
def delete_team (db : DB) (team_id : Nat) : Except Err Ack × DB :=
  match getTeam db team_id with
  | none => (Except.error teamNotFound, db)
  | some _ =>
    let heroes2 := db.heroes.map fun h =>
      if h.team_id = some team_id then { h with team_id := none } else h
    let teams2 := db.teams.filter fun t => !(t.id == team_id)
    (Except.ok { ok := true }, { teams := teams2, heroes := heroes2 })

/-- POST /heroes/ (`create_hero`, lines 207-215): derive the hash from the
plaintext, validate into a `Hero` row with the hash as extra data (the
`password` key is not a `Hero` field and is dropped), insert with a fresh
rowid, commit, return through `HeroPublic`. -/
def create_hero (db : DB) (hero : HeroCreate) : HeroPublic × DB :=
  let db_hero : Hero :=
    { id := freshHeroId db
      name := hero.name
      secret_name := hero.secret_name
      age := hero.age
      team_id := hero.team_id
      hashed_password := hash_password hero.password }
  (Hero.toPublic db_hero, { db with heroes := db.heroes ++ [db_hero] })

/-- GET /heroes/ (`read_heroes`, lines 218-226); limit validated exactly as
in `read_teams`. -/
def read_heroes (db : DB) (offset limit : Int) : Except Err (List HeroPublic) :=
  if 100 < limit then Except.error Err.validationError
  else Except.ok ((sqliteSlice offset limit db.heroes).map Hero.toPublic)

/-- GET /heroes/\x7bhero_id\x7d (`read_hero`, lines 229-234). -/
def read_hero (db : DB) (hero_id : Nat) : Except Err HeroPublic :=
  match getHero db hero_id with
  | none => Except.error heroNotFound
  | some h => Except.ok (Hero.toPublic h)

/-- PATCH /heroes/\x7bhero_id\x7d (`update_hero`, lines 237-254): 404 when the
primary key misses; otherwise dump the payload with `exclude_unset`, derive
`hashed_password` when the `password` key is present (even when its value is
null, which the f-string renders as the text None), and apply the dump plus
the extra data through `sqlmodel_update`, which assigns only keys that are
declared `Hero` fields, so the plaintext `password` key itself is skipped.
A present null for the NOT NULL columns `name` or `secret_name` is assigned
on the object but trips the integrity check at commit, rolling the
transaction back (a 500); otherwise the row is committed and returned
through `HeroPublic`. The row after `sqlmodel_update` applied the dumped
payload and the derived extra data (lines 244-250) is `sqlmodelUpdatedHero`:
each declared field present in the dump overwrites the stored column, the
`password` key is skipped because it is not a declared `Hero` field, and
`hashed_password` comes from the extra data exactly when the payload carried
a password. -/
def sqlmodelUpdatedHero (db_hero : Hero) (hero : HeroUpdate) : Hero :=
  { id := db_hero.id
    name := match hero.name with
      | some (some v) => v
      | _ => db_hero.name
    secret_name := match hero.secret_name with
      | some (some v) => v
      | _ => db_hero.secret_name
    age := match hero.age with
      | some v => v
      | none => db_hero.age
    team_id := match hero.team_id with
      | some v => v
      | none => db_hero.team_id
    hashed_password := match hero.password with
      | some pw => hash_password (pyStr pw)
      | none => db_hero.hashed_password }

def update_hero (db : DB) (hero_id : Nat) (hero : HeroUpdate) :
    Except Err HeroPublic × DB :=
  match getHero db hero_id with
  | none => (Except.error heroNotFound, db)
  | some db_hero =>
    if hero.name = some none ∨ hero.secret_name = some none then
      (Except.error Err.serverError, db)
    else
      let h2 : Hero := sqlmodelUpdatedHero db_hero hero
      (Except.ok (Hero.toPublic h2), { db with heroes := updateHeroes db.heroes hero_id h2 })

/-- DELETE /heroes/\x7bhero_id\x7d (`delete_hero`, lines 257-264): 404 when the
primary key misses, else remove the row and acknowledge. The hero side of
the relationship points at its parent, so no other row is touched. -/
def delete_hero (db : DB) (hero_id : Nat) : Except Err Ack × DB :=
  match getHero db hero_id with
  | none => (Except.error heroNotFound, db)
  | some _ =>
    (Except.ok { ok := true },
      { db with heroes := db.heroes.filter fun h => !(h.id == hero_id) })

/-- Relationship expansion of the `Hero.team` attribute (lines 34 and 41):
the single team whose primary key equals `team_id`, or nothing. This is the
join the declared foreign key and `Relationship` perform. -/
def expandHeroTeam (db : DB) (h : Hero) : Option TeamPublic :=
  match h.team_id with
  | none => none
  | some tid => (getTeam db tid).map Team.toPublic

/-- Modelled from the spec: the Read-one-with-relationship handler for Hero
(spec sections 4.1 and 4.2) has no route in src/main.py; the repository only
declares its response shape `HeroPublicWithTeam` (lines 60-61) and the
`Hero.team` relationship it would expand. Following the words of the spec:
return the public shape of the hero found by id together with the single
team referenced by `team_id`, or nothing if absent; 404 when the id misses. -/
def read_hero_with_team (db : DB) (hero_id : Nat) : Except Err HeroPublicWithTeam :=
  match getHero db hero_id with
  | none => Except.error heroNotFound
  | some h => Except.ok { toHeroPublic := Hero.toPublic h, team := expandHeroTeam db h }

/-- Scalar JSON value in a serialized response body. -/
inductive PrimVal where
  | pstr (s : String)
  | pint (n : Int)
  | pnat (n : Nat)
  | pnull
deriving DecidableEq, Repr

/-- JSON value in a serialized response body: a scalar or a flat nested
object (the expanded team). -/
inductive Val where
  | prim (v : PrimVal)
  | obj (fields : List (String × PrimVal))
deriving DecidableEq, Repr

def optIntVal : Option Int → PrimVal
  | none => PrimVal.pnull
  | some n => PrimVal.pint n

def optNatVal : Option Nat → PrimVal
  | none => PrimVal.pnull
  | some n => PrimVal.pnat n

/-- model_dump of a `TeamPublic` body, keys in field declaration order. -/
def TeamPublic.dumpFields (t : TeamPublic) : List (String × PrimVal) :=
  [("name", PrimVal.pstr t.name),
   ("headquarters", PrimVal.pstr t.headquarters),
   ("id", PrimVal.pnat t.id)]

/-- model_dump of a `HeroPublic` body, keys in field declaration order. -/
def HeroPublic.dump (h : HeroPublic) : List (String × Val) :=
  [("name", Val.prim (PrimVal.pstr h.name)),
   ("secret_name", Val.prim (PrimVal.pstr h.secret_name)),
   ("age", Val.prim (optIntVal h.age)),
   ("team_id", Val.prim (optNatVal h.team_id)),
   ("id", Val.prim (PrimVal.pnat h.id))]

/-- model_dump of a `HeroPublicWithTeam` body. -/
def HeroPublicWithTeam.dump (h : HeroPublicWithTeam) : List (String × Val) :=
  HeroPublic.dump h.toHeroPublic ++
    [("team",
      match h.team with
      | none => Val.prim PrimVal.pnull
      | some t => Val.obj (TeamPublic.dumpFields t))]

/-- Keys of a nested object value. -/
def valKeys : Val → List String
  | Val.prim _ => []
  | Val.obj fields => fields.map Prod.fst

/-- Every key appearing anywhere in a serialized body: the top level keys and
those of nested objects. -/
def dumpKeysDeep (d : List (String × Val)) : List String :=
  d.map Prod.fst ++ d.flatMap fun kv => valKeys kv.2

/-- One request against the service: the ten routes of src/main.py. -/
inductive Op where
  | createTeam (p : TeamCreate)
  | readTeams (offset limit : Int)
  | readTeam (id : Nat)
  | updateTeam (id : Nat) (p : TeamUpdate)
  | deleteTeam (id : Nat)
  | createHero (p : HeroCreate)
  | readHeroes (offset limit : Int)
  | readHero (id : Nat)
  | updateHero (id : Nat) (p : HeroUpdate)
  | deleteHero (id : Nat)
deriving DecidableEq, Repr

/-- Post state of the store after one request (reads leave it unchanged). -/
def Op.apply (db : DB) : Op → DB
  | Op.createTeam p => (create_team db p).2
  | Op.readTeams _ _ => db
  | Op.readTeam _ => db
  | Op.updateTeam i p => (update_team db i p).2
  | Op.deleteTeam i => (delete_team db i).2
  | Op.createHero p => (create_hero db p).2
  | Op.readHeroes _ _ => db
  | Op.readHero _ => db
  | Op.updateHero i p => (update_hero db i p).2
  | Op.deleteHero i => (delete_hero db i).2

/-- Sample team row used by concrete witnesses. -/
def exTeam1 : Team :=
  { id := 1, name := "Preventers", headquarters := "Sharp Tower" }

/-- Sample hero row referencing team 1, used by concrete witnesses. -/
def exHero1 : Hero :=
  { id := 1
    name := "Deadpond"
    secret_name := "Dive Wilson"
    age := none
    team_id := some 1
    hashed_password := hash_password "x" }

/-- Second sample hero row, with no team. -/
def exHero2 : Hero :=
  { id := 2
    name := "Rusty-Man"
    secret_name := "Tommy Sharp"
    age := some 48
    team_id := none
    hashed_password := hash_password "y" }

/-- Sample store: one team, two heroes. -/
def exDB : DB :=
  { teams := [exTeam1], heroes := [exHero1, exHero2] }

/-- Store holding only team 1 and no hero rows, exhibiting the update_team
lookup bug. -/
def exTeamsOnlyDB : DB :=
  { teams := [exTeam1], heroes := [] }

/-- Payload setting only the team name. -/
def exTeamNamePatch : TeamUpdate :=
  { name := some (some "Preventers of the Year"), headquarters := none }

/-- Payload setting team name and headquarters. -/
def exTeamFullPatch : TeamUpdate :=
  { name := some (some "Renamed"), headquarters := some (some "New Tower") }

/-- Hero patch supplying only age. -/
def exAgeOnlyPatch : HeroUpdate :=
  { name := none, secret_name := none, age := some (some 32), password := none, team_id := none }

/-- Hero patch supplying an explicit null name. -/
def exNullNamePatch : HeroUpdate :=
  { name := some none, secret_name := none, age := none, password := none, team_id := none }

/-- Hero patch supplying only a new password. -/
def exPasswordPatch : HeroUpdate :=
  { name := none, secret_name := none, age := none, password := some (some "s3cret"), team_id := none }

/-- Hero patch supplying a new password together with an explicit null name. -/
def exPwNullNamePatch : HeroUpdate :=
  { name := some none, secret_name := none, age := none,
    password := some (some "newpw"), team_id := none }

/-- Sample creation payloads. -/
def exTeamCreate : TeamCreate :=
  { name := "Z-Force", headquarters := "Sister Margaret Bar" }

def exHeroCreate : HeroCreate :=
  { name := "Spider-Boy"
    secret_name := "Pedro Parqueador"
    age := none
    team_id := some 1
    password := "pw" }

/-! Helper lemmas about the list level store operations. -/

theorem le_foldr_max {α : Type} (f : α → Nat) (l : List α) (x : α) (hx : x ∈ l) :
    f x ≤ l.foldr (fun a m => max (f a) m) 0 := by
  induction l with
  | nil => cases hx
  | cons a t ih =>
    rcases List.mem_cons.mp hx with h | h
    · subst h; exact Nat.le_max_left _ _
    · exact Nat.le_trans (ih h) (Nat.le_max_right _ _)

theorem hero_id_le_maxHeroId (db : DB) (h : Hero) (hm : h ∈ db.heroes) :
    h.id ≤ maxHeroId db :=
  le_foldr_max (fun x => x.id) db.heroes h hm

theorem team_id_le_maxTeamId (db : DB) (t : Team) (hm : t ∈ db.teams) :
    t.id ≤ maxTeamId db :=
  le_foldr_max (fun x => x.id) db.teams t hm

theorem updateHeroes_cons (a : Hero) (t : List Hero) (i : Nat) (h2 : Hero) :
    updateHeroes (a :: t) i h2 =
      (if a.id == i then h2 else a) :: updateHeroes t i h2 := rfl

theorem find?_append_of_none {α : Type} (p : α → Bool) (l₁ l₂ : List α)
    (h : l₁.find? p = none) : (l₁ ++ l₂).find? p = l₂.find? p := by
  induction l₁ with
  | nil => rfl
  | cons a t ih =>
    cases hb : p a with
    | true =>
      rw [List.find?_cons, hb] at h
      cases h
    | false =>
      rw [List.find?_cons, hb] at h
      rw [List.cons_append, List.find?_cons, hb]
      exact ih h

theorem find?_filter_ne (l : List Hero) (i : Nat) :
    (l.filter fun h => !(h.id == i)).find? (fun h => h.id == i) = none := by
  induction l with
  | nil => rfl
  | cons a t ih =>
    rcases Bool.eq_false_or_eq_true (a.id == i) with hb | hb
    · simp [List.filter_cons, hb, List.find?_cons, ih]
    · simp [List.filter_cons, hb, ih]

theorem find?_map_of_id (g : Hero → Hero) (hg : ∀ h, (g h).id = h.id)
    (l : List Hero) (i : Nat) :
    (l.map g).find? (fun h => h.id == i) = (l.find? fun h => h.id == i).map g := by
  induction l with
  | nil => rfl
  | cons a t ih =>
    cases hb : (a.id == i) with
    | false =>
      have hga : ((g a).id == i) = false := by rw [hg]; exact hb
      rw [List.map_cons, List.find?_cons, hga, List.find?_cons, hb]
      exact ih
    | true =>
      have hga : ((g a).id == i) = true := by rw [hg]; exact hb
      rw [List.map_cons, List.find?_cons, hga, List.find?_cons, hb]
      rfl

theorem find?_heroes_fresh (l : List Hero) (h : Hero) (i : Nat) (hi : h.id = i)
    (hfresh : ∀ x ∈ l, x.id ≠ i) :
    (l ++ [h]).find? (fun x => x.id == i) = some h := by
  have hnone : l.find? (fun x => x.id == i) = none := by
    rw [List.find?_eq_none]
    intro x hx
    exact fun hEq => hfresh x hx (eq_of_beq hEq)
  rw [find?_append_of_none _ _ _ hnone]
  rw [List.find?_cons, hi, beq_self_eq_true]

theorem find?_teams_fresh (l : List Team) (t : Team) (i : Nat) (hi : t.id = i)
    (hfresh : ∀ x ∈ l, x.id ≠ i) :
    (l ++ [t]).find? (fun x => x.id == i) = some t := by
  have hnone : l.find? (fun x => x.id == i) = none := by
    rw [List.find?_eq_none]
    intro x hx
    exact fun hEq => hfresh x hx (eq_of_beq hEq)
  rw [find?_append_of_none _ _ _ hnone]
  rw [List.find?_cons, hi, beq_self_eq_true]

theorem find?_updateHeroes_self (l : List Hero) (i : Nat) (dh h2 : Hero)
    (hf : l.find? (fun h => h.id == i) = some dh) (hid : h2.id = i) :
    (updateHeroes l i h2).find? (fun h => h.id == i) = some h2 := by
  induction l with
  | nil => cases hf
  | cons a t ih =>
    cases hb : (a.id == i) with
    | false =>
      have hf' : t.find? (fun h => h.id == i) = some dh := by
        rw [List.find?_cons, hb] at hf
        exact hf
      have hstep : updateHeroes (a :: t) i h2 = a :: updateHeroes t i h2 := by
        rw [updateHeroes_cons, hb]
        rfl
      rw [hstep, List.find?_cons, hb]
      exact ih hf'
    | true =>
      have hstep : updateHeroes (a :: t) i h2 = h2 :: updateHeroes t i h2 := by
        rw [updateHeroes_cons, hb]
        rfl
      have hh2 : (h2.id == i) = true := by rw [hid]; exact beq_self_eq_true i
      rw [hstep, List.find?_cons, hh2]

theorem mem_updateHeroes_of_ne (l : List Hero) (i : Nat) (h2 h : Hero)
    (hm : h ∈ l) (hne : h.id ≠ i) : h ∈ updateHeroes l i h2 := by
  have hb : (h.id == i) = false := by
    cases hbe : (h.id == i) with
    | false => rfl
    | true => exact absurd (eq_of_beq hbe) hne
  have : (if h.id == i then h2 else h) = h := by rw [hb]; rfl
  rw [updateHeroes]
  exact this ▸ List.mem_map_of_mem _ hm

theorem mem_map_id_preserved (g : Hero → Hero) (hg : ∀ x, (g x).id = x.id)
    (l : List Hero) (h : Hero) (hm : h ∈ l.map g) : ∃ h0 ∈ l, h.id = h0.id := by
  rcases List.mem_map.mp hm with ⟨a, ha, hae⟩
  exact ⟨a, ha, by rw [← hae, hg]⟩

theorem mem_updateHeroes_id (l : List Hero) (i : Nat) (h2 h : Hero)
    (hm : h ∈ updateHeroes l i h2) (hid : ∃ dh, dh ∈ l ∧ h2.id = dh.id) :
    ∃ h0 ∈ l, h.id = h0.id := by
  rcases List.mem_map.mp hm with ⟨a, ha, hae⟩
  cases hb : (a.id == i) with
  | true =>
    have : h = h2 := by rw [← hae, hb]; rfl
    rcases hid with ⟨dh, hdh, he⟩
    exact ⟨dh, hdh, by rw [this, he]⟩
  | false =>
    have : h = a := by rw [← hae, hb]; rfl
    exact ⟨a, ha, by rw [this]⟩

theorem update_hero_miss (db : DB) (i : Nat) (p : HeroUpdate)
    (hget : getHero db i = none) :
    update_hero db i p = (Except.error heroNotFound, db) := by
  rw [update_hero, hget]

theorem update_hero_ok_spec (db : DB) (i : Nat) (p : HeroUpdate) (dh : Hero)
    (hget : getHero db i = some dh)
    (hname : p.name ≠ some none) (hsec : p.secret_name ≠ some none) :
    update_hero db i p =
      (Except.ok (Hero.toPublic (sqlmodelUpdatedHero dh p)),
        { db with heroes := updateHeroes db.heroes i (sqlmodelUpdatedHero dh p) }) := by
  have hcond : ¬(p.name = some none ∨ p.secret_name = some none) := by
    intro hc
    rcases hc with hc | hc
    · exact hname hc
    · exact hsec hc
  rw [update_hero, hget]
  simp only [if_neg hcond]

theorem update_hero_null_spec (db : DB) (i : Nat) (p : HeroUpdate) (dh : Hero)
    (hget : getHero db i = some dh)
    (hcond : p.name = some none ∨ p.secret_name = some none) :
    update_hero db i p = (Except.error Err.serverError, db) := by
  rw [update_hero, hget]
  simp only [if_pos hcond]

theorem dh_id_eq (db : DB) (i : Nat) (dh : Hero) (hget : getHero db i = some dh) :
    dh.id = i := by
  have h : db.heroes.find? (fun h : Hero => h.id == i) = some dh := hget
  have h2 := @List.find?_some Hero (fun h : Hero => h.id == i) dh db.heroes h
  exact eq_of_beq h2

theorem getHero_update_hero_self (db : DB) (i : Nat) (p : HeroUpdate) (dh : Hero)
    (hget : getHero db i = some dh)
    (hname : p.name ≠ some none) (hsec : p.secret_name ≠ some none) :
    getHero (update_hero db i p).2 i = some (sqlmodelUpdatedHero dh p) := by
  rw [update_hero_ok_spec db i p dh hget hname hsec]
  exact find?_updateHeroes_self db.heroes i dh _ hget (dh_id_eq db i dh hget)

theorem update_team_fst (db : DB) (tid : Nat) (p : TeamUpdate) :
    (update_team db tid p).1 = Except.error Err.serverError := by
  rw [update_team]
  cases getHero db tid with
  | none => rfl
  | some dh =>
    cases p.headquarters with
    | some _ => rfl
    | none =>
      cases p.name with
      | none => rfl
      | some o => cases o with
        | none => rfl
        | some v => rfl

theorem update_team_teams_eq (db : DB) (tid : Nat) (p : TeamUpdate) :
    (update_team db tid p).2.teams = db.teams := by
  rw [update_team]
  cases getHero db tid with
  | none => rfl
  | some dh =>
    cases p.headquarters with
    | some _ => rfl
    | none =>
      cases p.name with
      | none => rfl
      | some o => cases o with
        | none => rfl
        | some v => rfl

theorem update_team_write_spec (db : DB) (tid : Nat) (p : TeamUpdate) (dh : Hero) (v : String)
    (hget : getHero db tid = some dh) (hhq : p.headquarters = none)
    (hn : p.name = some (some v)) :
    (update_team db tid p).2 =
      { db with heroes := updateHeroes db.heroes tid { dh with name := v } } := by
  rw [update_team, hget, hhq, hn]

theorem update_team_untouched (db : DB) (tid : Nat) (p : TeamUpdate)
    (hc : getHero db tid = none ∨ p.headquarters ≠ none ∨ p.name = none ∨ p.name = some none) :
    (update_team db tid p).2 = db := by
  rw [update_team]
  cases hget : getHero db tid with
  | none => rfl
  | some dh =>
    cases hhq : p.headquarters with
    | some _ => rfl
    | none =>
      cases hn : p.name with
      | none => rfl
      | some o =>
        cases o with
        | none => rfl
        | some v =>
          rcases hc with hc | hc | hc | hc
          · rw [hget] at hc; cases hc
          · exact absurd hhq hc
          · rw [hn] at hc; cases hc
          · rw [hn] at hc; cases hc

theorem dumpKeysDeep_heroPublic (hp : HeroPublic) :
    dumpKeysDeep (HeroPublic.dump hp) =
      ["name", "secret_name", "age", "team_id", "id"] := rfl

theorem dumpKeysDeep_heroPublicWithTeam (r : HeroPublicWithTeam) :
    dumpKeysDeep (HeroPublicWithTeam.dump r) =
      ["name", "secret_name", "age", "team_id", "id", "team"] ++
        (match r.team with
         | none => []
         | some _ => ["name", "headquarters", "id"]) := by
  obtain ⟨hp, tm⟩ := r
  cases tm <;> rfl

theorem hash_password_ne (s : String) : hash_password s ≠ s := by
  intro h
  have hlen := congrArg String.length h
  rw [hash_password, String.length_append, String.length_append] at hlen
  have h1 : ("not really hashed ").length = 18 := rfl
  have h2 : (" hehehe").length = 7 := rfl
  rw [h1, h2] at hlen
  omega

theorem nat_beq_false_of_ne {a b : Nat} (h : a ≠ b) : (a == b) = false := by
  cases hbe : (a == b) with
  | false => rfl
  | true => exact absurd (eq_of_beq hbe) h

theorem mem_of_getHero (db : DB) (i : Nat) (dh : Hero)
    (hget : getHero db i = some dh) : dh ∈ db.heroes := by
  have h : db.heroes.find? (fun h : Hero => h.id == i) = some dh := hget
  exact List.mem_of_find?_eq_some h

theorem mem_of_getTeam (db : DB) (j : Nat) (t : Team)
    (hget : getTeam db j = some t) : t ∈ db.teams := by
  have h : db.teams.find? (fun x : Team => x.id == j) = some t := hget
  exact List.mem_of_find?_eq_some h

theorem nullTeamId_id (tid : Nat) (x : Hero) :
    ((if x.team_id = some tid then { x with team_id := none } else x) : Hero).id = x.id := by
  by_cases hx : x.team_id = some tid
  · rw [if_pos hx]
  · rw [if_neg hx]

theorem update_hero_teams_eq (db : DB) (i : Nat) (p : HeroUpdate) :
    (update_hero db i p).2.teams = db.teams := by
  cases hget : getHero db i with
  | none => rw [update_hero_miss db i p hget]
  | some dh =>
    by_cases hc : p.name = some none ∨ p.secret_name = some none
    · rw [update_hero_null_spec db i p dh hget hc]
    · have hnn : p.name ≠ some none := fun hx => hc (Or.inl hx)
      have hns : p.secret_name ≠ some none := fun hx => hc (Or.inr hx)
      rw [update_hero_ok_spec db i p dh hget hnn hns]

theorem delete_hero_teams_eq (db : DB) (i : Nat) :
    (delete_hero db i).2.teams = db.teams := by
  cases hget : getHero db i with
  | none => rw [delete_hero, hget]
  | some a => rw [delete_hero, hget]

/-! Claim theorems. -/

/-- Claim C1: the spec states that PATCH on a team id that names no Team
answers 404 with the store unchanged, and on an existing Team answers the
updated Team public shape. The code instead looks the id up in the hero
table and its not-found guard tests the request payload (which is always
truthy), so evaluated at a store where Team 1 exists and the hero table is
empty, the handler ends in a 500 server error and Team 1 is not updated. -/
theorem update_team_wrong_table_observed :
    update_team exTeamsOnlyDB 1 exTeamNamePatch =
      (Except.error Err.serverError, exTeamsOnlyDB) ∧
    getTeam exTeamsOnlyDB 1 = some exTeam1 ∧
    read_team (update_team exTeamsOnlyDB 1 exTeamNamePatch).2 1 =
      Except.ok (Team.toPublic exTeam1) :=
  ⟨rfl, rfl, rfl⟩

/-- Claim C9, refuted as stated: with Hero 1 present and a payload carrying
both name and headquarters, the handler writes nothing at all (assigning the
unknown headquarters attribute raises before any commit), so the payload
fields are not written onto the Hero row. -/
theorem update_team_headquarters_not_written_observed :
    update_team exDB 1 exTeamFullPatch = (Except.error Err.serverError, exDB) ∧
    getHero exDB 1 = some exHero1 ∧
    exHero1.name ≠ "Renamed" :=
  ⟨rfl, rfl, by decide⟩

/-- Claim C9 (amended): the Update Team handler reads and writes the hero
table and never modifies any Team row; every request ends in a 500 server
error; the store is untouched when the hero is missing, when the payload
carries headquarters, or when it carries no non-null name; and a payload
whose non-null name reaches an existing hero commits exactly that name onto
the hero row, all other heroes unchanged. -/
theorem update_team_targets_hero_row :
    (∀ db tid p, (update_team db tid p).1 = Except.error Err.serverError) ∧
    (∀ db tid p, (update_team db tid p).2.teams = db.teams) ∧
    (∀ db tid p, getHero db tid = none ∨ p.headquarters ≠ none ∨
      p.name = none ∨ p.name = some none → (update_team db tid p).2 = db) ∧
    (∀ db tid p dh v, getHero db tid = some dh → p.headquarters = none →
      p.name = some (some v) →
      getHero (update_team db tid p).2 tid = some { dh with name := v } ∧
      (∀ h, h ∈ db.heroes → h.id ≠ tid → h ∈ (update_team db tid p).2.heroes)) := by
  refine ⟨update_team_fst, update_team_teams_eq, update_team_untouched, ?_⟩
  intro db tid p dh v hget hhq hn
  rw [update_team_write_spec db tid p dh v hget hhq hn]
  constructor
  · exact find?_updateHeroes_self db.heroes tid dh _ hget (dh_id_eq db tid dh hget)
  · intro h hm hne
    exact mem_updateHeroes_of_ne db.heroes tid _ h hm hne

/-- Witness for claim C9 at a concrete store: patching team id 1 writes the
new name onto Hero 1. -/
theorem update_team_targets_hero_row_witness :
    getHero (update_team exDB 1 exTeamNamePatch).2 1 =
      some { exHero1 with name := "Preventers of the Year" } :=
  (update_team_targets_hero_row.2.2.2 exDB 1 exTeamNamePatch exHero1
    "Preventers of the Year" rfl rfl rfl).1

/-- Claim C3, refuted as stated: a requested limit of 101 is rejected with a
422 validation error, not capped at 100, and a negative limit is passed
through to SQLite where it means no upper bound at all. -/
theorem read_list_limit_rejected_observed :
    read_heroes exDB 0 101 = Except.error Err.validationError ∧
    read_teams exDB 0 101 = Except.error Err.validationError ∧
    read_heroes exDB 0 (-1) =
      Except.ok [Hero.toPublic exHero1, Hero.toPublic exHero2] :=
  ⟨rfl, rfl, rfl⟩

/-- Claim C3 (amended): a list request whose accepted limit is between 0 and
100 succeeds and returns at most limit records, hence never more than 100;
a limit above 100 is rejected by query validation rather than capped. -/
theorem read_list_limit_bound :
    (∀ db offset limit l, 0 ≤ limit → read_heroes db offset limit = Except.ok l →
      (l.length : Int) ≤ limit ∧ l.length ≤ 100) ∧
    (∀ db offset limit l, 0 ≤ limit → read_teams db offset limit = Except.ok l →
      (l.length : Int) ≤ limit ∧ l.length ≤ 100) := by
  constructor
  · intro db offset limit l h0 hok
    rw [read_heroes] at hok
    by_cases hlim : 100 < limit
    · rw [if_pos hlim] at hok; cases hok
    · rw [if_neg hlim] at hok
      have hl := Except.ok.inj hok
      subst hl
      have hlen : ((sqliteSlice offset limit db.heroes).map Hero.toPublic).length
          ≤ limit.toNat := by
        rw [List.length_map]
        simp only [sqliteSlice]
        rw [if_neg (by omega : ¬limit < 0)]
        rw [List.length_take]
        exact Nat.min_le_left _ _
      constructor <;> omega
  · intro db offset limit l h0 hok
    rw [read_teams] at hok
    by_cases hlim : 100 < limit
    · rw [if_pos hlim] at hok; cases hok
    · rw [if_neg hlim] at hok
      have hl := Except.ok.inj hok
      subst hl
      have hlen : ((sqliteSlice offset limit db.teams).map Team.toPublic).length
          ≤ limit.toNat := by
        rw [List.length_map]
        simp only [sqliteSlice]
        rw [if_neg (by omega : ¬limit < 0)]
        rw [List.length_take]
        exact Nat.min_le_left _ _
      constructor <;> omega

/-- Witness for claim C3 at a concrete store: limit 1 on a two-hero table
returns one record, within both bounds. -/
theorem read_list_limit_bound_witness :
    (([Hero.toPublic exHero1] : List HeroPublic).length : Int) ≤ 1 ∧
    ([Hero.toPublic exHero1] : List HeroPublic).length ≤ 100 :=
  read_list_limit_bound.1 exDB 0 1 [Hero.toPublic exHero1] (by decide) rfl

/-- Claim C7: deleting an existing hero acknowledges with ok exactly once:
the second delete of the same id and a subsequent read of it both answer the
404 not-found signal. -/
theorem delete_hero_ok_once_then_not_found (db : DB) (i : Nat) (h : Hero)
    (hget : getHero db i = some h) :
    (delete_hero db i).1 = Except.ok { ok := true } ∧
    (delete_hero (delete_hero db i).2 i).1 = Except.error heroNotFound ∧
    read_hero (delete_hero db i).2 i = Except.error heroNotFound := by
  have hd : (delete_hero db i).2 =
      { db with heroes := db.heroes.filter fun x => !(x.id == i) } := by
    rw [delete_hero, hget]
  have hpost : getHero (delete_hero db i).2 i = none := by
    rw [hd]
    exact find?_filter_ne db.heroes i
  refine ⟨?_, ?_, ?_⟩
  · rw [delete_hero, hget]
  · have h2 : ∀ db1 : DB, getHero db1 i = none →
        (delete_hero db1 i).1 = Except.error heroNotFound := by
      intro db1 hnone
      rw [delete_hero, hnone]
    exact h2 _ hpost
  · have h3 : ∀ db1 : DB, getHero db1 i = none →
        read_hero db1 i = Except.error heroNotFound := by
      intro db1 hnone
      rw [read_hero, hnone]
    exact h3 _ hpost

/-- Witness for claim C7 at a concrete store with Hero 1. -/
theorem delete_hero_ok_once_then_not_found_witness :
    (delete_hero exDB 1).1 = Except.ok { ok := true } ∧
    (delete_hero (delete_hero exDB 1).2 1).1 = Except.error heroNotFound ∧
    read_hero (delete_hero exDB 1).2 1 = Except.error heroNotFound :=
  delete_hero_ok_once_then_not_found exDB 1 exHero1 rfl

/-- Claim C2, refuted as stated: an explicitly supplied null for name is
present in the payload yet is not applied, because the hero.name column is
NOT NULL: the commit fails, the request ends in a 500 and the store is
unchanged. -/
theorem update_hero_null_name_rejected :
    update_hero exDB 1 exNullNamePatch = (Except.error Err.serverError, exDB) ∧
    getHero exDB 1 = some exHero1 ∧
    exNullNamePatch.name = some none :=
  ⟨rfl, rfl, rfl⟩

/-- Claim C2 (amended): a partial hero update on an existing hero applies
exactly the explicitly present payload fields: a present field overwrites
the stored column (a present null is applied to the nullable columns age
and team_id), an absent field keeps its prior value, hashed_password is
rewritten exactly when the payload carries a password, so in particular an
empty payload changes no field and an age-only payload changes only age;
every other hero row is untouched. A present null for the NOT NULL columns
name or secret_name is rejected at commit and applies nothing. -/
theorem update_hero_applies_present_fields (db : DB) (i : Nat) (p : HeroUpdate)
    (dh : Hero) (hget : getHero db i = some dh)
    (hname : p.name ≠ some none) (hsec : p.secret_name ≠ some none) :
    (update_hero db i p).1 = Except.ok (Hero.toPublic (sqlmodelUpdatedHero dh p)) ∧
    getHero (update_hero db i p).2 i = some (sqlmodelUpdatedHero dh p) ∧
    (sqlmodelUpdatedHero dh p).id = dh.id ∧
    (sqlmodelUpdatedHero dh p).name =
      (match p.name with | some (some v) => v | _ => dh.name) ∧
    (sqlmodelUpdatedHero dh p).secret_name =
      (match p.secret_name with | some (some v) => v | _ => dh.secret_name) ∧
    (sqlmodelUpdatedHero dh p).age =
      (match p.age with | some v => v | none => dh.age) ∧
    (sqlmodelUpdatedHero dh p).team_id =
      (match p.team_id with | some v => v | none => dh.team_id) ∧
    (sqlmodelUpdatedHero dh p).hashed_password =
      (match p.password with
       | some pw => hash_password (pyStr pw)
       | none => dh.hashed_password) ∧
    (∀ h, h ∈ db.heroes → h.id ≠ i → h ∈ (update_hero db i p).2.heroes) := by
  refine ⟨?_, getHero_update_hero_self db i p dh hget hname hsec,
    rfl, rfl, rfl, rfl, rfl, rfl, ?_⟩
  · rw [update_hero_ok_spec db i p dh hget hname hsec]
  · intro h hm hne
    rw [update_hero_ok_spec db i p dh hget hname hsec]
    exact mem_updateHeroes_of_ne db.heroes i _ h hm hne

/-- Witness for claim C2 at a concrete store: the age-only patch stores the
record whose only changed field is age. -/
theorem update_hero_applies_present_fields_witness :
    getHero (update_hero exDB 1 exAgeOnlyPatch).2 1 =
      some (sqlmodelUpdatedHero exHero1 exAgeOnlyPatch) :=
  (update_hero_applies_present_fields exDB 1 exAgeOnlyPatch exHero1 rfl
    (by decide) (by decide)).2.1

/-- Claim C4, refuted as stated: a payload that carries a new password
together with an explicit null name never stores the derived hash: the null
trips the NOT NULL constraint on hero.name at commit, the request ends in a
500 and the stored record, hashed_password included, keeps its prior value,
which differs from the hash of the new password. -/
theorem update_hero_password_with_null_name_not_hashed :
    exPwNullNamePatch.password = some (some "newpw") ∧
    update_hero exDB 1 exPwNullNamePatch = (Except.error Err.serverError, exDB) ∧
    (getHero exDB 1).map Hero.hashed_password = some (hash_password "x") ∧
    hash_password "x" ≠ hash_password (pyStr (some "newpw")) :=
  ⟨rfl, rfl, rfl, by decide⟩

/-- Claim C4 (amended): a hero update whose payload carries a password and
supplies no explicit null for the NOT NULL columns name and secret_name
stores the derived hash, the stored value differs from the supplied
plaintext, and the plaintext reaches no other stored column: name and
secret_name only ever receive their own payload value or keep their prior
value. A password-carrying payload that also supplies an explicit null name
or secret_name fails at commit and leaves the record, hashed_password
included, unchanged (see the counterexample). -/
theorem update_hero_password_never_plaintext (db : DB) (i : Nat) (p : HeroUpdate)
    (dh : Hero) (pw : Option String) (hget : getHero db i = some dh)
    (hpw : p.password = some pw)
    (hname : p.name ≠ some none) (hsec : p.secret_name ≠ some none) :
    (sqlmodelUpdatedHero dh p).hashed_password = hash_password (pyStr pw) ∧
    (sqlmodelUpdatedHero dh p).hashed_password ≠ pyStr pw ∧
    getHero (update_hero db i p).2 i = some (sqlmodelUpdatedHero dh p) ∧
    (p.name ≠ some (some (pyStr pw)) → dh.name ≠ pyStr pw →
      (sqlmodelUpdatedHero dh p).name ≠ pyStr pw) ∧
    (p.secret_name ≠ some (some (pyStr pw)) → dh.secret_name ≠ pyStr pw →
      (sqlmodelUpdatedHero dh p).secret_name ≠ pyStr pw) := by
  have hhash : (sqlmodelUpdatedHero dh p).hashed_password = hash_password (pyStr pw) := by
    simp only [sqlmodelUpdatedHero, hpw]
  refine ⟨hhash, ?_, getHero_update_hero_self db i p dh hget hname hsec, ?_, ?_⟩
  · rw [hhash]
    exact hash_password_ne (pyStr pw)
  · intro hp1 hp2
    cases hn : p.name with
    | none =>
      simpa [sqlmodelUpdatedHero, hn] using hp2
    | some o =>
      cases o with
      | none => exact absurd hn hname
      | some v =>
        have hv : (sqlmodelUpdatedHero dh p).name = v := by
          simp [sqlmodelUpdatedHero, hn]
        rw [hv]
        intro he
        exact hp1 (by rw [hn, he])
  · intro hp1 hp2
    cases hn : p.secret_name with
    | none =>
      simpa [sqlmodelUpdatedHero, hn] using hp2
    | some o =>
      cases o with
      | none => exact absurd hn hsec
      | some v =>
        have hv : (sqlmodelUpdatedHero dh p).secret_name = v := by
          simp [sqlmodelUpdatedHero, hn]
        rw [hv]
        intro he
        exact hp1 (by rw [hn, he])

/-- Witness for claim C4 at a concrete store and password patch. -/
theorem update_hero_password_never_plaintext_witness :
    (sqlmodelUpdatedHero exHero1 exPasswordPatch).hashed_password =
      hash_password (pyStr (some "s3cret")) ∧
    (sqlmodelUpdatedHero exHero1 exPasswordPatch).hashed_password ≠
      pyStr (some "s3cret") :=
  ⟨(update_hero_password_never_plaintext exDB 1 exPasswordPatch exHero1
      (some "s3cret") rfl rfl (by decide) (by decide)).1,
   (update_hero_password_never_plaintext exDB 1 exPasswordPatch exHero1
      (some "s3cret") rfl rfl (by decide) (by decide)).2.1⟩

/-- Claim C5: every hero returning operation (create, list, read one, read
one with relationship, update) answers through a public shape whose
serialized body never contains a hashed_password key, at the top level or
inside the expanded team object. -/
theorem hero_responses_exclude_hashed_password :
    (∀ db p, "hashed_password" ∉ dumpKeysDeep (HeroPublic.dump (create_hero db p).1)) ∧
    (∀ db offset limit l, read_heroes db offset limit = Except.ok l →
      ∀ hp, hp ∈ l → "hashed_password" ∉ dumpKeysDeep (HeroPublic.dump hp)) ∧
    (∀ db i hp, read_hero db i = Except.ok hp →
      "hashed_password" ∉ dumpKeysDeep (HeroPublic.dump hp)) ∧
    (∀ db i r, read_hero_with_team db i = Except.ok r →
      "hashed_password" ∉ dumpKeysDeep (HeroPublicWithTeam.dump r)) ∧
    (∀ db i p hp, (update_hero db i p).1 = Except.ok hp →
      "hashed_password" ∉ dumpKeysDeep (HeroPublic.dump hp)) := by
  have hbase : ∀ hp : HeroPublic,
      "hashed_password" ∉ dumpKeysDeep (HeroPublic.dump hp) := by
    intro hp
    rw [dumpKeysDeep_heroPublic]
    decide
  have hwt : ∀ r : HeroPublicWithTeam,
      "hashed_password" ∉ dumpKeysDeep (HeroPublicWithTeam.dump r) := by
    intro r
    rw [dumpKeysDeep_heroPublicWithTeam]
    cases r.team with
    | none =>
      have hk : "hashed_password" ∉
          (["name", "secret_name", "age", "team_id", "id", "team"] ++ ([] : List String)) := by
        decide
      exact hk
    | some t =>
      have hk : "hashed_password" ∉
          (["name", "secret_name", "age", "team_id", "id", "team"] ++
            (["name", "headquarters", "id"] : List String)) := by
        decide
      exact hk
  exact ⟨fun db p => hbase _,
    fun db offset limit l _ hp _ => hbase hp,
    fun db i hp _ => hbase hp,
    fun db i r _ => hwt r,
    fun db i p hp _ => hbase hp⟩

/-- Witness for claim C5: the body served for Hero 1 has no hashed_password
key. -/
theorem hero_responses_exclude_hashed_password_witness :
    "hashed_password" ∉ dumpKeysDeep (HeroPublic.dump (Hero.toPublic exHero1)) :=
  hero_responses_exclude_hashed_password.2.2.1 exDB 1 (Hero.toPublic exHero1) rfl

/-- Claim C6, refuted as stated: hero 1 references team 1, and after team 1
is deleted the stored hero row carries a null team_id rather than the
unchanged dangling value, because the ORM de-associates children of a
deleted parent. -/
theorem delete_team_team_id_nulled_observed :
    exHero1.team_id = some 1 ∧
    getHero (delete_team exDB 1).2 1 = some { exHero1 with team_id := none } ∧
    ({ exHero1 with team_id := none } : Hero) ≠ exHero1 :=
  ⟨rfl, rfl, by decide⟩

/-- Claim C6 (amended): deleting an existing team does not delete its member
heroes, but each hero that referenced the team is kept with its team_id set
to null by the ORM de-association rather than keeping the dangling value;
reading such a hero with relationship expansion afterwards yields no team. -/
theorem delete_team_deassociates_heroes (db : DB) (tid : Nat) (t : Team)
    (i : Nat) (h : Hero) (hteam : getTeam db tid = some t)
    (hhero : getHero db i = some h) (href : h.team_id = some tid) :
    (delete_team db tid).1 = Except.ok { ok := true } ∧
    getHero (delete_team db tid).2 i = some { h with team_id := none } ∧
    read_hero_with_team (delete_team db tid).2 i =
      Except.ok (HeroPublicWithTeam.mk (Hero.toPublic { h with team_id := none }) none) := by
  have hpost2 : (delete_team db tid).2.heroes =
      db.heroes.map fun x =>
        if x.team_id = some tid then { x with team_id := none } else x := by
    rw [delete_team, hteam]
  have hget2 : getHero (delete_team db tid).2 i = some { h with team_id := none } := by
    rw [getHero, hpost2]
    rw [find?_map_of_id _ (nullTeamId_id tid) db.heroes i]
    rw [show db.heroes.find? (fun x : Hero => x.id == i) = some h from hhero]
    show some (if h.team_id = some tid then { h with team_id := none } else h) =
      some { h with team_id := none }
    rw [if_pos href]
  refine ⟨?_, hget2, ?_⟩
  · rw [delete_team, hteam]
  · rw [read_hero_with_team, hget2]
    rfl

/-- Witness for claim C6 at a concrete store: after deleting team 1, reading
hero 1 with relationship expansion yields the hero with null team_id and no
team. -/
theorem delete_team_deassociates_heroes_witness :
    read_hero_with_team (delete_team exDB 1).2 1 =
      Except.ok
        (HeroPublicWithTeam.mk (Hero.toPublic { exHero1 with team_id := none }) none) :=
  (delete_team_deassociates_heroes exDB 1 exTeam1 1 exHero1 rfl rfl rfl).2.2

/-- Claim C10, refuted as stated: deleting team 1 changes the hero that
referenced it: the original hero row is no longer in the store (its team_id
was nulled). -/
theorem delete_team_mutates_referencing_hero_observed :
    exHero1 ∈ exDB.heroes ∧ exHero1 ∉ (delete_team exDB 1).2.heroes := by
  constructor
  · decide
  · decide

/-- Claim C10 (amended): a hero delete removes exactly the row with the given
id, leaving every team and every other hero unchanged; a team delete removes
exactly the team with the given id and leaves every other team unchanged,
and it leaves every hero not referencing the deleted team unchanged, while a
hero referencing it is kept with exactly its team_id nulled. -/
theorem delete_exactly_one_record :
    (∀ db i a, getHero db i = some a →
      (delete_hero db i).2.teams = db.teams ∧
      (∀ h, h ∈ db.heroes → h.id ≠ i → h ∈ (delete_hero db i).2.heroes) ∧
      (∀ h, h ∈ (delete_hero db i).2.heroes → h ∈ db.heroes ∧ h.id ≠ i)) ∧
    (∀ db j t, getTeam db j = some t →
      (∀ t2, t2 ∈ db.teams → t2.id ≠ j → t2 ∈ (delete_team db j).2.teams) ∧
      (∀ t2, t2 ∈ (delete_team db j).2.teams → t2 ∈ db.teams ∧ t2.id ≠ j) ∧
      (∀ h, h ∈ db.heroes → h.team_id ≠ some j → h ∈ (delete_team db j).2.heroes) ∧
      (∀ h, h ∈ db.heroes → h.team_id = some j →
        ({ h with team_id := none } : Hero) ∈ (delete_team db j).2.heroes) ∧
      (∀ h2, h2 ∈ (delete_team db j).2.heroes → ∃ h, h ∈ db.heroes ∧
        (h2 = h ∨ (h.team_id = some j ∧ h2 = { h with team_id := none })))) := by
  constructor
  · intro db i a hget
    have hd : (delete_hero db i).2 =
        { db with heroes := db.heroes.filter fun x => !(x.id == i) } := by
      rw [delete_hero, hget]
    refine ⟨by rw [hd], ?_, ?_⟩
    · intro h hm hne
      rw [hd]
      refine List.mem_filter.mpr ⟨hm, ?_⟩
      rw [nat_beq_false_of_ne hne]
      rfl
    · intro h hm
      rw [hd] at hm
      have hmf := List.mem_filter.mp hm
      refine ⟨hmf.1, ?_⟩
      intro he
      have hp := hmf.2
      rw [he, beq_self_eq_true] at hp
      exact absurd hp (by decide)
  · intro db j t hget
    have hd : (delete_team db j).2 =
        { teams := db.teams.filter fun x => !(x.id == j),
          heroes := db.heroes.map fun x =>
            if x.team_id = some j then { x with team_id := none } else x } := by
      rw [delete_team, hget]
    refine ⟨?_, ?_, ?_, ?_, ?_⟩
    · intro t2 hm hne
      rw [hd]
      refine List.mem_filter.mpr ⟨hm, ?_⟩
      rw [nat_beq_false_of_ne hne]
      rfl
    · intro t2 hm
      rw [hd] at hm
      have hmf := List.mem_filter.mp hm
      refine ⟨hmf.1, ?_⟩
      intro he
      have hp := hmf.2
      rw [he, beq_self_eq_true] at hp
      exact absurd hp (by decide)
    · intro h hm hne
      rw [hd]
      have hx : (if h.team_id = some j then { h with team_id := none } else h) = h :=
        if_neg hne
      exact hx ▸ List.mem_map_of_mem _ hm
    · intro h hm he
      rw [hd]
      have hx : (if h.team_id = some j then { h with team_id := none } else h) =
          { h with team_id := none } := if_pos he
      exact hx ▸ List.mem_map_of_mem _ hm
    · intro h2 hm
      rw [hd] at hm
      rcases List.mem_map.mp hm with ⟨a, ha, hae⟩
      by_cases hc : a.team_id = some j
      · rw [if_pos hc] at hae
        exact ⟨a, ha, Or.inr ⟨hc, hae.symm⟩⟩
      · rw [if_neg hc] at hae
        exact ⟨a, ha, Or.inl hae.symm⟩

/-- Witness for claim C10 at a concrete store: deleting hero 2 leaves the
team table unchanged. -/
theorem delete_exactly_one_record_witness :
    (delete_hero exDB 2).2.teams = exDB.teams :=
  (delete_exactly_one_record.1 exDB 2 exHero2 rfl).1

/-- Claim C8: a create returns a freshly generated id distinct from the id
of every record of that entity in the store, echoes the caller supplied
fields, and a subsequent read of the new id returns the same public body;
moreover no operation of the service ever yields a hero or a team whose id
is neither a pre-existing id nor the id generated by that very create, so an
id is never reassigned. -/
theorem create_id_fresh_and_stable :
    (∀ db p t, t ∈ db.teams → (create_team db p).1.id ≠ t.id) ∧
    (∀ db p h, h ∈ db.heroes → (create_hero db p).1.id ≠ h.id) ∧
    (∀ db p, (create_team db p).1.name = p.name ∧
      (create_team db p).1.headquarters = p.headquarters ∧
      read_team (create_team db p).2 (create_team db p).1.id =
        Except.ok (create_team db p).1) ∧
    (∀ db p, (create_hero db p).1.name = p.name ∧
      (create_hero db p).1.secret_name = p.secret_name ∧
      (create_hero db p).1.age = p.age ∧
      (create_hero db p).1.team_id = p.team_id ∧
      read_hero (create_hero db p).2 (create_hero db p).1.id =
        Except.ok (create_hero db p).1) ∧
    (∀ db op h, h ∈ (Op.apply db op).heroes →
      (∃ h0, h0 ∈ db.heroes ∧ h.id = h0.id) ∨
      (∃ p, op = Op.createHero p ∧ h.id = freshHeroId db)) ∧
    (∀ db op t, t ∈ (Op.apply db op).teams →
      (∃ t0, t0 ∈ db.teams ∧ t.id = t0.id) ∨
      (∃ p, op = Op.createTeam p ∧ t.id = freshTeamId db)) := by
  refine ⟨?_, ?_, ?_, ?_, ?_, ?_⟩
  · intro db p t ht he
    have h2 : maxTeamId db + 1 = t.id := he
    have h3 := team_id_le_maxTeamId db t ht
    omega
  · intro db p h hm he
    have h2 : maxHeroId db + 1 = h.id := he
    have h3 := hero_id_le_maxHeroId db h hm
    omega
  · intro db p
    refine ⟨rfl, rfl, ?_⟩
    have hfresh : ∀ x ∈ db.teams, x.id ≠ freshTeamId db := by
      intro x hx he
      have h2 : x.id = maxTeamId db + 1 := he
      have h3 := team_id_le_maxTeamId db x hx
      omega
    have hfind := find?_teams_fresh db.teams
      { id := freshTeamId db, name := p.name, headquarters := p.headquarters }
      (freshTeamId db) rfl hfresh
    show read_team
      { db with teams := db.teams ++
          [{ id := freshTeamId db, name := p.name, headquarters := p.headquarters }] }
      (freshTeamId db) =
      Except.ok (Team.toPublic
        { id := freshTeamId db, name := p.name, headquarters := p.headquarters })
    rw [read_team, getTeam]
    rw [show ((db.teams ++
        [({ id := freshTeamId db, name := p.name, headquarters := p.headquarters } : Team)]).find?
        fun x => x.id == freshTeamId db) =
        some { id := freshTeamId db, name := p.name, headquarters := p.headquarters }
      from hfind]
  · intro db p
    refine ⟨rfl, rfl, rfl, rfl, ?_⟩
    have hfresh : ∀ x ∈ db.heroes, x.id ≠ freshHeroId db := by
      intro x hx he
      have h2 : x.id = maxHeroId db + 1 := he
      have h3 := hero_id_le_maxHeroId db x hx
      omega
    have hfind := find?_heroes_fresh db.heroes
      { id := freshHeroId db, name := p.name, secret_name := p.secret_name,
        age := p.age, team_id := p.team_id,
        hashed_password := hash_password p.password }
      (freshHeroId db) rfl hfresh
    show read_hero
      { db with heroes := db.heroes ++
          [{ id := freshHeroId db, name := p.name, secret_name := p.secret_name,
             age := p.age, team_id := p.team_id,
             hashed_password := hash_password p.password }] }
      (freshHeroId db) =
      Except.ok (Hero.toPublic
        { id := freshHeroId db, name := p.name, secret_name := p.secret_name,
          age := p.age, team_id := p.team_id,
          hashed_password := hash_password p.password })
    rw [read_hero, getHero]
    rw [show ((db.heroes ++
        [({ id := freshHeroId db, name := p.name, secret_name := p.secret_name,
            age := p.age, team_id := p.team_id,
            hashed_password := hash_password p.password } : Hero)]).find?
        fun x => x.id == freshHeroId db) =
        some ({ id := freshHeroId db, name := p.name, secret_name := p.secret_name,
                age := p.age, team_id := p.team_id,
                hashed_password := hash_password p.password } : Hero)
      from hfind]
  · intro db op h hm
    cases op with
    | createTeam p => exact Or.inl ⟨h, hm, rfl⟩
    | readTeams o lim => exact Or.inl ⟨h, hm, rfl⟩
    | readTeam j => exact Or.inl ⟨h, hm, rfl⟩
    | updateTeam j p =>
      refine Or.inl ?_
      have hm2 : h ∈ (update_team db j p).2.heroes := hm
      cases hget : getHero db j with
      | none =>
        rw [update_team_untouched db j p (Or.inl hget)] at hm2
        exact ⟨h, hm2, rfl⟩
      | some dh =>
        cases hhq : p.headquarters with
        | some w =>
          rw [update_team_untouched db j p
            (Or.inr (Or.inl (by rw [hhq]; intro hc; cases hc)))] at hm2
          exact ⟨h, hm2, rfl⟩
        | none =>
          cases hn : p.name with
          | none =>
            rw [update_team_untouched db j p (Or.inr (Or.inr (Or.inl hn)))] at hm2
            exact ⟨h, hm2, rfl⟩
          | some o =>
            cases o with
            | none =>
              rw [update_team_untouched db j p (Or.inr (Or.inr (Or.inr hn)))] at hm2
              exact ⟨h, hm2, rfl⟩
            | some v =>
              rw [update_team_write_spec db j p dh v hget hhq hn] at hm2
              exact mem_updateHeroes_id db.heroes j _ h hm2
                ⟨dh, mem_of_getHero db j dh hget, rfl⟩
    | deleteTeam j =>
      refine Or.inl ?_
      have hm2 : h ∈ (delete_team db j).2.heroes := hm
      cases hget : getTeam db j with
      | none =>
        have hd : (delete_team db j).2 = db := by rw [delete_team, hget]
        rw [hd] at hm2
        exact ⟨h, hm2, rfl⟩
      | some t =>
        have hd : (delete_team db j).2.heroes = db.heroes.map fun x =>
            if x.team_id = some j then { x with team_id := none } else x := by
          rw [delete_team, hget]
        rw [hd] at hm2
        exact mem_map_id_preserved _ (nullTeamId_id j) db.heroes h hm2
    | createHero p =>
      have hm2 : h ∈ db.heroes ++
          [{ id := freshHeroId db, name := p.name, secret_name := p.secret_name,
             age := p.age, team_id := p.team_id,
             hashed_password := hash_password p.password }] := hm
      rcases List.mem_append.mp hm2 with hold | hnew
      · exact Or.inl ⟨h, hold, rfl⟩
      · refine Or.inr ⟨p, rfl, ?_⟩
        rw [List.mem_singleton.mp hnew]
    | readHeroes o lim => exact Or.inl ⟨h, hm, rfl⟩
    | readHero j => exact Or.inl ⟨h, hm, rfl⟩
    | updateHero j p =>
      refine Or.inl ?_
      have hm2 : h ∈ (update_hero db j p).2.heroes := hm
      cases hget : getHero db j with
      | none =>
        rw [update_hero_miss db j p hget] at hm2
        exact ⟨h, hm2, rfl⟩
      | some dh =>
        by_cases hc : p.name = some none ∨ p.secret_name = some none
        · rw [update_hero_null_spec db j p dh hget hc] at hm2
          exact ⟨h, hm2, rfl⟩
        · have hnn : p.name ≠ some none := fun hx => hc (Or.inl hx)
          have hns : p.secret_name ≠ some none := fun hx => hc (Or.inr hx)
          rw [update_hero_ok_spec db j p dh hget hnn hns] at hm2
          exact mem_updateHeroes_id db.heroes j _ h hm2
            ⟨dh, mem_of_getHero db j dh hget, rfl⟩
    | deleteHero j =>
      refine Or.inl ?_
      have hm2 : h ∈ (delete_hero db j).2.heroes := hm
      cases hget : getHero db j with
      | none =>
        have hd : (delete_hero db j).2 = db := by rw [delete_hero, hget]
        rw [hd] at hm2
        exact ⟨h, hm2, rfl⟩
      | some a =>
        have hd : (delete_hero db j).2.heroes =
            db.heroes.filter fun x => !(x.id == j) := by
          rw [delete_hero, hget]
        rw [hd] at hm2
        exact ⟨h, (List.mem_filter.mp hm2).1, rfl⟩
  · intro db op t hm
    cases op with
    | createTeam p =>
      have hm2 : t ∈ db.teams ++
          [{ id := freshTeamId db, name := p.name, headquarters := p.headquarters }] := hm
      rcases List.mem_append.mp hm2 with hold | hnew
      · exact Or.inl ⟨t, hold, rfl⟩
      · refine Or.inr ⟨p, rfl, ?_⟩
        rw [List.mem_singleton.mp hnew]
    | readTeams o lim => exact Or.inl ⟨t, hm, rfl⟩
    | readTeam j => exact Or.inl ⟨t, hm, rfl⟩
    | updateTeam j p =>
      refine Or.inl ?_
      have hm2 : t ∈ (update_team db j p).2.teams := hm
      rw [update_team_teams_eq db j p] at hm2
      exact ⟨t, hm2, rfl⟩
    | deleteTeam j =>
      refine Or.inl ?_
      have hm2 : t ∈ (delete_team db j).2.teams := hm
      cases hget : getTeam db j with
      | none =>
        have hd : (delete_team db j).2 = db := by rw [delete_team, hget]
        rw [hd] at hm2
        exact ⟨t, hm2, rfl⟩
      | some t0 =>
        have hd : (delete_team db j).2.teams =
            db.teams.filter fun x => !(x.id == j) := by
          rw [delete_team, hget]
        rw [hd] at hm2
        exact ⟨t, (List.mem_filter.mp hm2).1, rfl⟩
    | createHero p => exact Or.inl ⟨t, hm, rfl⟩
    | readHeroes o lim => exact Or.inl ⟨t, hm, rfl⟩
    | readHero j => exact Or.inl ⟨t, hm, rfl⟩
    | updateHero j p =>
      refine Or.inl ?_
      have hm2 : t ∈ (update_hero db j p).2.teams := hm
      rw [update_hero_teams_eq db j p] at hm2
      exact ⟨t, hm2, rfl⟩
    | deleteHero j =>
      refine Or.inl ?_
      have hm2 : t ∈ (delete_hero db j).2.teams := hm
      rw [delete_hero_teams_eq db j] at hm2
      exact ⟨t, hm2, rfl⟩

/-- Witness for claim C8 at a concrete store: the id generated for a new
team differs from the id of the existing team 1. -/
theorem create_id_fresh_and_stable_witness :
    (create_team exDB exTeamCreate).1.id ≠ exTeam1.id :=
  create_id_fresh_and_stable.1 exDB exTeamCreate exTeam1 (by decide)

end Tutorial
